import Mathlib

/-!
Verification of the CivicFeed Post resource service.

Shallow embedding of `server/routes/posts.js` together with the Mongoose
`Post` schema (`models/Post.js`).  The persistent store is a `List Post`;
store behaviour delegated to MongoDB/Mongoose (id casting, schema
validation on save, `$near` filtering, result ordering) is modelled
explicitly where the routes rely on it, following the documented semantics
of those libraries.  User ids and post ids are strings.
-/

namespace CivicFeed

/-! ### ObjectId casting

`Post.findById(id)` (and every route taking `:id`) casts the id string to a
Mongo ObjectId.  Mongoose accepts a 24-character hex string or any
12-character string; any other string makes the query reject with a
`CastError`, which the route's `catch` turns into a 500 response. -/

def hexDigit (c : Char) : Bool :=
  c.isDigit || ('a' ≤ c && c ≤ 'f') || ('A' ≤ c && c ≤ 'F')

def isValidObjectId (s : String) : Bool :=
  s.length = 12 || (s.length = 24 && s.data.all hexDigit)

/-! ### Multer file upload stage

`upload.single('media')` runs before the create handler.  `fileFilter`
tests the regex `/jpeg|jpg|png|gif|mp4|mov|avi/` against the lowercased
extension of the original name and against the mimetype; `.test` is a
substring search, so each alternative is checked as a substring.  The
`limits.fileSize` option rejects files over 10MB.  A multer error skips
the handler and reaches the app-level error middleware, which answers 500. -/

def leadTest : List Char → List Char → Bool
  | [], _ => true
  | _ :: _, [] => false
  | a :: as, b :: bs => a = b && leadTest as bs

def infixTest (nd : List Char) : List Char → Bool
  | [] => nd.isEmpty
  | c :: cs => leadTest nd (c :: cs) || infixTest nd cs

def substrTest (needle hay : String) : Bool :=
  infixTest needle.data hay.data

/-- `pre` is a leading piece of `s` (JavaScript `String.prototype.startsWith`). -/
def startsTest (pre s : String) : Bool :=
  leadTest pre.data s.data

def lowerStr (s : String) : String :=
  String.mk (s.data.map Char.toLower)

def isWs (c : Char) : Bool :=
  c = ' ' || c = '\t' || c = '\n' || c = '\r'

def trimLead : List Char → List Char
  | [] => []
  | c :: cs => if isWs c then trimLead cs else c :: cs

/-- JavaScript `String.prototype.trim` (the Mongoose `trim: true` setter). -/
def jsTrim (s : String) : String :=
  String.mk (trimLead (trimLead s.data.reverse).reverse)

/-- The characters after the last `'.'`, when the list has one. -/
def afterLastDot : List Char → Option (List Char)
  | [] => none
  | c :: cs =>
    match afterLastDot cs with
    | some e => some e
    | none => if c = '.' then some cs else none

/-- Node's `path.extname`: the suffix of the name from its last dot, or `""`
when the name has no dot, only a leading dot, or is `"."`/`".."`. -/
def extname (s : String) : String :=
  if s = "." || s = ".." then ""
  else
    match afterLastDot s.data with
    | none => ""
    | some e => if e.length + 1 = s.data.length then "" else "." ++ String.mk e

structure UploadFile where
  originalname : String
  mimetype : String
  size : Nat
  filename : String
deriving DecidableEq

def filetypes : List String := ["jpeg", "jpg", "png", "gif", "mp4", "mov", "avi"]

def filetypesTest (s : String) : Bool :=
  filetypes.any (fun t => substrTest t s)

def fileFilterOk (f : UploadFile) : Bool :=
  filetypesTest (lowerStr (extname f.originalname)) && filetypesTest f.mimetype

def maxFileSize : Nat := 10 * 1024 * 1024

/-- The multer stage: `none` is a multer error (bad type or oversize file),
`some f?` hands the (possibly absent) accepted file to the route handler. -/
def uploadSingle (file : Option UploadFile) : Option (Option UploadFile) :=
  match file with
  | none => some none
  | some f =>
    if fileFilterOk f then
      if f.size ≤ maxFileSize then some (some f) else none
    else none

/-! ### Data model (Mongoose `PostSchema`) -/

structure Comment where
  user : String
  text : String
  createdAt : Nat
deriving DecidableEq

/-- A persisted post.  `location.type` is the constant `'Point'` and is
omitted; `lng`/`lat` are the two entries of `location.coordinates` (GeoJSON
order `[lng, lat]`). -/
structure Post where
  id : String
  title : String
  description : String
  category : String
  lng : Int
  lat : Int
  address : Option String
  imageUrl : Option String
  videoUrl : Option String
  status : String
  author : String
  assignedTo : Option String
  upvotes : List String
  likes : List String
  shares : Nat
  comments : List Comment
  createdAt : Nat
deriving DecidableEq

def categoryEnum : List String :=
  ["roads", "lighting", "sanitation", "water", "parks", "safety", "other"]

def statusEnum : List String := ["reported", "in progress", "resolved"]

/-- Mongoose document validation run by `save()`: `required` string paths
must be non-empty (`title` is trimmed by its setter before this check), and
`category`/`status` must lie in their declared enums.  `author` is required
but always set by the handlers, and array paths carry no validators. -/
def validPost (p : Post) : Bool :=
  p.title ≠ "" && p.description ≠ "" &&
    p.category ∈ categoryEnum && p.status ∈ statusEnum

/-- Persisting a modified document: `post.save()` writes the document back
over the stored one with the same id. -/
def saveReplace (db : List Post) (p : Post) : List Post :=
  db.map (fun q => if q.id = p.id then p else q)

/-! ### POST / (create) -/

/-- The multipart request body.  `title`...`address` are the fields the
handler destructures; `lat`/`lng` are shown after `parseFloat`, with `none`
standing for an absent field or a non-numeric value (`NaN`, which Mongoose
rejects when casting `location.coordinates`).  `status` and `author` may be
supplied by the client but the handler never reads them. -/
structure CreateBody where
  title : Option String
  description : Option String
  category : Option String
  lat : Option Int
  lng : Option Int
  address : Option String
  status : Option String
  author : Option String
deriving DecidableEq

/-- The document the handler assembles for `new Post({...})`: trimmed title,
`[lng, lat]` coordinates, the media URL put in `imageUrl` or `videoUrl`
according to the uploaded file's mimetype, `author` from the authenticated
user, and the schema defaults for `status`, `upvotes`, `likes`, `shares`
and `comments`. -/
def newPostDoc (uid : String) (body : CreateBody) (t d c : String)
    (la ln : Int) (file : Option UploadFile) (nid : String) (now : Nat) : Post :=
  { id := nid, title := jsTrim t, description := d, category := c,
    lng := ln, lat := la, address := body.address,
    imageUrl := if (file.map (fun f => startsTest "image" f.mimetype)).getD false
                then file.map (fun f => "/uploads/" ++ f.filename) else none,
    videoUrl := if (file.map (fun f => startsTest "video" f.mimetype)).getD false
                then file.map (fun f => "/uploads/" ++ f.filename) else none,
    status := "reported", author := uid, assignedTo := none,
    upvotes := [], likes := [], shares := 0, comments := [], createdAt := now }

/-- `new Post({...})` followed by the validation `save()` runs: `none` when
a required field is missing (`title`, `description`, `category` absent, or
`lat`/`lng` absent or non-numeric) or document validation fails. -/
def mkNewPost (uid : String) (body : CreateBody) (file : Option UploadFile)
    (nid : String) (now : Nat) : Option Post :=
  match body.title, body.description, body.category, body.lat, body.lng with
  | some t, some d, some c, some la, some ln =>
    if validPost (newPostDoc uid body t d c la ln file nid now)
    then some (newPostDoc uid body t d c la ln file nid now)
    else none
  | _, _, _, _, _ => none

inductive CreateResult where
  | created : Post → CreateResult
  | serverError : CreateResult
  | uploadError : CreateResult
deriving DecidableEq

/-- HTTP status of a create outcome: 201 on success; a schema validation or
cast failure is caught by the route and answered 500; a multer failure
reaches the app error middleware, also 500. -/
def CreateResult.code : CreateResult → Nat
  | .created _ => 201
  | .serverError => 500
  | .uploadError => 500

def createPost (db : List Post) (uid : String) (body : CreateBody)
    (file : Option UploadFile) (nid : String) (now : Nat) :
    CreateResult × List Post :=
  match uploadSingle file with
  | none => (.uploadError, db)
  | some f =>
    match mkNewPost uid body f nid now with
    | none => (.serverError, db)
    | some p => (.created p, db ++ [p])

/-! ### PUT /:id (status / assignment update) -/

structure UpdateBody where
  status : Option String
  assignedTo : Option String
deriving DecidableEq

/-- `if (status) post.status = status`: JavaScript truthiness, so an absent,
null or empty-string value is ignored. -/
def applyStatus (post : Post) (s : Option String) : Post :=
  match s with
  | some v => if v ≠ "" then { post with status := v } else post
  | none => post

/-- `if (assignedTo) post.assignedTo = assignedTo`, same truthiness. -/
def applyAssigned (post : Post) (a : Option String) : Post :=
  match a with
  | some v => if v ≠ "" then { post with assignedTo := some v } else post
  | none => post

def applyUpdate (post : Post) (body : UpdateBody) : Post :=
  applyAssigned (applyStatus post body.status) body.assignedTo

inductive UpdateResult where
  | ok : Post → UpdateResult
  | notFound : UpdateResult
  | forbidden : UpdateResult
  | serverError : UpdateResult
deriving DecidableEq

def UpdateResult.code : UpdateResult → Nat
  | .ok _ => 200
  | .notFound => 404
  | .forbidden => 403
  | .serverError => 500

def updatePost (db : List Post) (id cid role : String) (body : UpdateBody) :
    UpdateResult × List Post :=
  if isValidObjectId id then
    match db.find? (fun p => p.id = id) with
    | none => (.notFound, db)
    | some post =>
      if post.author ≠ cid ∧ role ≠ "municipal" then (.forbidden, db)
      else
        let p' := applyUpdate post body
        if validPost p' then (.ok p', saveReplace db p') else (.serverError, db)
  else (.serverError, db)

/-! ### GET /:id -/

inductive GetResult where
  | ok : Post → GetResult
  | notFound : GetResult
  | serverError : GetResult
deriving DecidableEq

def GetResult.code : GetResult → Nat
  | .ok _ => 200
  | .notFound => 404
  | .serverError => 500

def getPostById (db : List Post) (id : String) : GetResult :=
  if isValidObjectId id then
    match db.find? (fun p => p.id = id) with
    | none => .notFound
    | some p => .ok p
  else .serverError

/-! ### POST /:id/like and /:id/upvote -/

/-- The membership flip both toggle routes perform on their list:
`includes` then either `filter(u => u.toString() !== userId)` or `push`. -/
def toggleList (l : List String) (u : String) : List String :=
  if u ∈ l then l.filter (fun v => v ≠ u) else l ++ [u]

structure LikeResponse where
  likes : Nat
  userLiked : Bool
deriving DecidableEq

inductive LikeResult where
  | ok : LikeResponse → LikeResult
  | notFound : LikeResult
  | serverError : LikeResult
deriving DecidableEq

def likeRoute (db : List Post) (id uid : String) : LikeResult × List Post :=
  if isValidObjectId id then
    match db.find? (fun p => p.id = id) with
    | none => (.notFound, db)
    | some post =>
      let hasLiked : Bool := uid ∈ post.likes
      let post' := { post with likes := toggleList post.likes uid }
      if validPost post' then
        (.ok { likes := post'.likes.length, userLiked := !hasLiked },
          saveReplace db post')
      else (.serverError, db)
  else (.serverError, db)

structure UpvoteResponse where
  upvotes : Nat
  hasUpvoted : Bool
deriving DecidableEq

inductive UpvoteResult where
  | ok : UpvoteResponse → UpvoteResult
  | notFound : UpvoteResult
  | serverError : UpvoteResult
deriving DecidableEq

def upvoteRoute (db : List Post) (id uid : String) : UpvoteResult × List Post :=
  if isValidObjectId id then
    match db.find? (fun p => p.id = id) with
    | none => (.notFound, db)
    | some post =>
      let hasUpvoted : Bool := uid ∈ post.upvotes
      let post' := { post with upvotes := toggleList post.upvotes uid }
      if validPost post' then
        (.ok { upvotes := post'.upvotes.length, hasUpvoted := !hasUpvoted },
          saveReplace db post')
      else (.serverError, db)
  else (.serverError, db)

/-! ### POST /:id/comments -/

inductive CommentResult where
  | ok : List Comment → CommentResult
  | notFound : CommentResult
  | serverError : CommentResult
deriving DecidableEq

def commentRoute (db : List Post) (id uid : String) (text : Option String)
    (now : Nat) : CommentResult × List Post :=
  if isValidObjectId id then
    match db.find? (fun p => p.id = id) with
    | none => (.notFound, db)
    | some post =>
      match text with
      | some t =>
        let post' := { post with comments := post.comments ++ [⟨uid, t, now⟩] }
        if validPost post' ∧ t ≠ "" then (.ok post'.comments, saveReplace db post')
        else (.serverError, db)
      | none => (.serverError, db)
  else (.serverError, db)

/-! ### GET / (list with filters)

The handler builds one Mongo query from `category`, `status` and `near`
(the latter parsed by `near.split(',')` into `[lat, lng, radius = 5000]`,
issued as `$near`/`$maxDistance`), then runs
`find(query).sort({createdAt: -1}).limit(limit).skip((page-1)*limit)`.
Mongo evaluates the filter, then the explicit `createdAt` sort — which
replaces the distance ordering `$near` would otherwise give — then skip,
then limit.  The geodesic metric of the `2dsphere` index lives in the
store, so the model is parametric in the distance function `dist` over
`(lng, lat)` pairs; every stated property holds for, or is refuted
independently of, the store's actual metric. -/

structure NearQuery where
  lat : Int
  lng : Int
  radius : Option Int
deriving DecidableEq

/-- The destructuring default: `radius = 5000` when the third component of
`near` is absent. -/
def nearRadius (n : NearQuery) : Int :=
  match n.radius with
  | some r => r
  | none => 5000

/-- `if (category) query.category = category` (and likewise `status`):
an absent or empty query parameter adds no condition. -/
def matchesFilter (oc : Option String) (v : String) : Bool :=
  match oc with
  | none => true
  | some c => if c = "" then true else v = c

def matchesNear (dist : Int × Int → Int × Int → Int) (nq : Option NearQuery)
    (p : Post) : Bool :=
  match nq with
  | none => true
  | some n => dist (p.lng, p.lat) (n.lng, n.lat) ≤ nearRadius n

def createdDesc (a b : Post) : Prop := b.createdAt ≤ a.createdAt

instance : DecidableRel createdDesc := fun a b => by
  unfold createdDesc; exact Nat.decLe _ _

instance : IsTotal Post createdDesc :=
  ⟨fun a b => Nat.le_total b.createdAt a.createdAt⟩

instance : IsTrans Post createdDesc :=
  ⟨fun _ _ _ hab hbc => Nat.le_trans hbc hab⟩

def sortByCreatedAtDesc (l : List Post) : List Post :=
  List.insertionSort createdDesc l

def listPosts (dist : Int × Int → Int × Int → Int) (db : List Post)
    (category status : Option String) (near : Option NearQuery)
    (lim page : Nat) : List Post :=
  let filtered := db.filter (fun p =>
    matchesFilter category p.category && matchesFilter status p.status &&
      matchesNear dist near p)
  let sorted := sortByCreatedAtDesc filtered
  (sorted.drop ((page - 1) * lim)).take lim

/-! ### Reachable store states

Every mutating route, starting from the empty collection. -/

inductive Reachable : List Post → Prop where
  | init : Reachable []
  | create : ∀ db uid body file nid now, Reachable db →
      Reachable (createPost db uid body file nid now).2
  | update : ∀ db id cid role body, Reachable db →
      Reachable (updatePost db id cid role body).2
  | addComment : ∀ db id uid text now, Reachable db →
      Reachable (commentRoute db id uid text now).2
  | like : ∀ db id uid, Reachable db →
      Reachable (likeRoute db id uid).2
  | upvote : ∀ db id uid, Reachable db →
      Reachable (upvoteRoute db id uid).2

/-! ### Helper lemmas -/

theorem toggleList_of_mem {l : List String} {u : String} (h : u ∈ l) :
    toggleList l u = l.filter (fun v => v ≠ u) := by
  simp [toggleList, h]

theorem toggleList_of_not_mem {l : List String} {u : String} (h : u ∉ l) :
    toggleList l u = l ++ [u] := by
  simp [toggleList, h]

theorem not_mem_toggleList_self {l : List String} {u : String} (h : u ∈ l) :
    u ∉ toggleList l u := by
  rw [toggleList_of_mem h]
  simp

theorem mem_toggleList_self {l : List String} {u : String} (h : u ∉ l) :
    u ∈ toggleList l u := by
  rw [toggleList_of_not_mem h]
  simp

theorem mem_toggleList_ne {l : List String} {u v : String} (hv : v ≠ u) :
    v ∈ toggleList l u ↔ v ∈ l := by
  by_cases h : u ∈ l
  · rw [toggleList_of_mem h]
    simp [hv]
  · rw [toggleList_of_not_mem h]
    simp [hv]

theorem filter_ne_of_not_mem {l : List String} {u : String} (h : u ∉ l) :
    l.filter (fun v => v ≠ u) = l := by
  induction l with
  | nil => rfl
  | cons a as ih =>
    have ha : a ≠ u := fun hau => h (hau ▸ List.mem_cons_self a as)
    have has : u ∉ as := fun hus => h (List.mem_cons_of_mem a hus)
    simp [ha, ih has]
    intro b hb hbu
    exact has (hbu ▸ hb)

theorem mem_toggleList_toggleList {l : List String} {u v : String} :
    v ∈ toggleList (toggleList l u) u ↔ v ∈ l := by
  rcases eq_or_ne v u with rfl | hv
  · constructor
    · intro h
      by_cases hm : v ∈ l
      · exact hm
      · exact absurd h (not_mem_toggleList_self (mem_toggleList_self hm))
    · intro hm
      exact mem_toggleList_self (not_mem_toggleList_self hm)
  · rw [mem_toggleList_ne hv, mem_toggleList_ne hv]

theorem toggleList_nodup {l : List String} {u : String} (h : l.Nodup) :
    (toggleList l u).Nodup := by
  by_cases hm : u ∈ l
  · rw [toggleList_of_mem hm]
    exact h.filter _
  · rw [toggleList_of_not_mem hm]
    refine List.Nodup.append h (List.nodup_singleton u) ?_
    intro v hvl hvu
    rw [List.mem_singleton] at hvu
    exact hm (hvu ▸ hvl)

theorem decide_mem_toggleList {l : List String} {u : String} :
    decide (u ∈ toggleList l u) = !decide (u ∈ l) := by
  by_cases hm : u ∈ l
  · simp [hm, not_mem_toggleList_self hm]
  · simp [hm, mem_toggleList_self hm]

theorem mem_saveReplace {db : List Post} {p q : Post}
    (h : q ∈ saveReplace db p) : q = p ∨ q ∈ db := by
  unfold saveReplace at h
  rcases List.mem_map.1 h with ⟨a, ha, hq⟩
  by_cases hid : a.id = p.id
  · rw [if_pos hid] at hq
    exact Or.inl hq.symm
  · rw [if_neg hid] at hq
    exact Or.inr (hq ▸ ha)

theorem applyStatus_frame (post : Post) (s : Option String) :
    (applyStatus post s).title = post.title ∧
    (applyStatus post s).description = post.description ∧
    (applyStatus post s).category = post.category ∧
    (applyStatus post s).lng = post.lng ∧
    (applyStatus post s).lat = post.lat ∧
    (applyStatus post s).address = post.address ∧
    (applyStatus post s).imageUrl = post.imageUrl ∧
    (applyStatus post s).videoUrl = post.videoUrl ∧
    (applyStatus post s).author = post.author ∧
    (applyStatus post s).assignedTo = post.assignedTo ∧
    (applyStatus post s).upvotes = post.upvotes ∧
    (applyStatus post s).likes = post.likes ∧
    (applyStatus post s).shares = post.shares ∧
    (applyStatus post s).comments = post.comments ∧
    (applyStatus post s).createdAt = post.createdAt ∧
    (applyStatus post s).id = post.id := by
  cases s with
  | none => simp [applyStatus]
  | some v =>
    by_cases hv : v = ""
    · simp [applyStatus, hv]
    · simp [applyStatus, hv]

theorem applyAssigned_frame (post : Post) (a : Option String) :
    (applyAssigned post a).title = post.title ∧
    (applyAssigned post a).description = post.description ∧
    (applyAssigned post a).category = post.category ∧
    (applyAssigned post a).lng = post.lng ∧
    (applyAssigned post a).lat = post.lat ∧
    (applyAssigned post a).address = post.address ∧
    (applyAssigned post a).imageUrl = post.imageUrl ∧
    (applyAssigned post a).videoUrl = post.videoUrl ∧
    (applyAssigned post a).author = post.author ∧
    (applyAssigned post a).status = post.status ∧
    (applyAssigned post a).upvotes = post.upvotes ∧
    (applyAssigned post a).likes = post.likes ∧
    (applyAssigned post a).shares = post.shares ∧
    (applyAssigned post a).comments = post.comments ∧
    (applyAssigned post a).createdAt = post.createdAt ∧
    (applyAssigned post a).id = post.id := by
  cases a with
  | none => simp [applyAssigned]
  | some v =>
    by_cases hv : v = ""
    · simp [applyAssigned, hv]
    · simp [applyAssigned, hv]

theorem applyStatus_none (post : Post) : applyStatus post none = post := rfl

theorem applyAssigned_none (post : Post) : applyAssigned post none = post := rfl

theorem applyStatus_empty (post : Post) : applyStatus post (some "") = post := rfl

theorem applyAssigned_empty (post : Post) : applyAssigned post (some "") = post := rfl

theorem mkNewPost_some {uid : String} {body : CreateBody} {file : Option UploadFile}
    {nid : String} {now : Nat} {p : Post}
    (h : mkNewPost uid body file nid now = some p) :
    validPost p = true ∧ p.status = "reported" ∧ p.author = uid ∧
      p.likes = [] ∧ p.upvotes = [] ∧ p.assignedTo = none := by
  unfold mkNewPost at h
  split at h
  case h_2 => exact absurd h (by simp)
  case h_1 t d c la ln ht hd hc hla hln =>
    split at h
    case isTrue hv =>
      cases h
      exact ⟨hv, rfl, rfl, rfl, rfl, rfl⟩
    case isFalse => exact absurd h (by simp)

theorem createPost_created {db : List Post} {uid : String} {body : CreateBody}
    {file : Option UploadFile} {nid : String} {now : Nat} {p : Post}
    (h : (createPost db uid body file nid now).1 = .created p) :
    validPost p = true ∧ p.status = "reported" ∧ p.author = uid ∧
      p.likes = [] ∧ p.upvotes = [] ∧ p.assignedTo = none := by
  cases hu : uploadSingle file with
  | none => simp [createPost, hu] at h
  | some f =>
    cases hm : mkNewPost uid body f nid now with
    | none => simp [createPost, hu, hm] at h
    | some q =>
      simp only [createPost, hu, hm] at h
      cases h
      exact mkNewPost_some hm

theorem createPost_mem {db : List Post} {uid : String} {body : CreateBody}
    {file : Option UploadFile} {nid : String} {now : Nat} {q : Post}
    (h : q ∈ (createPost db uid body file nid now).2) :
    q ∈ db ∨ (validPost q = true ∧ q.likes = [] ∧ q.upvotes = []) := by
  cases hu : uploadSingle file with
  | none =>
    simp only [createPost, hu] at h
    exact Or.inl h
  | some f =>
    cases hm : mkNewPost uid body f nid now with
    | none =>
      simp only [createPost, hu, hm] at h
      exact Or.inl h
    | some p =>
      simp only [createPost, hu, hm, List.mem_append, List.mem_singleton] at h
      rcases h with h | rfl
      · exact Or.inl h
      · rcases mkNewPost_some hm with ⟨hv, _, _, hl, hup, _⟩
        exact Or.inr ⟨hv, hl, hup⟩

theorem updatePost_mem {db : List Post} {id cid role : String} {body : UpdateBody}
    {q : Post} (h : q ∈ (updatePost db id cid role body).2) :
    q ∈ db ∨ ∃ post, post ∈ db ∧ q = applyUpdate post body ∧ validPost q = true := by
  by_cases hvid : isValidObjectId id = true
  · cases hf : db.find? (fun p => p.id = id) with
    | none =>
      simp only [updatePost, hvid, if_true, hf] at h
      exact Or.inl h
    | some post =>
      have hpost : post ∈ db := List.mem_of_find?_eq_some hf
      by_cases hauth : post.author ≠ cid ∧ role ≠ "municipal"
      · simp only [updatePost, hvid, if_true, hf, if_pos hauth] at h
        exact Or.inl h
      · by_cases hvp : validPost (applyUpdate post body) = true
        · simp only [updatePost, hvid, if_true, hf, if_neg hauth, hvp, if_true] at h
          rcases mem_saveReplace h with rfl | h
          · exact Or.inr ⟨post, hpost, rfl, hvp⟩
          · exact Or.inl h
        · simp only [updatePost, hvid, if_true, hf, if_neg hauth, hvp, if_false] at h
          exact Or.inl h
  · simp only [updatePost, hvid, if_false] at h
    exact Or.inl h

theorem likeRoute_mem {db : List Post} {id uid : String} {q : Post}
    (h : q ∈ (likeRoute db id uid).2) :
    q ∈ db ∨ ∃ post, post ∈ db ∧
      q = { post with likes := toggleList post.likes uid } ∧ validPost q = true := by
  by_cases hvid : isValidObjectId id = true
  · cases hf : db.find? (fun p => p.id = id) with
    | none =>
      simp only [likeRoute, hvid, if_true, hf] at h
      exact Or.inl h
    | some post =>
      have hpost : post ∈ db := List.mem_of_find?_eq_some hf
      by_cases hvp : validPost { post with likes := toggleList post.likes uid } = true
      · simp only [likeRoute, hvid, if_true, hf, hvp, if_true] at h
        rcases mem_saveReplace h with rfl | h
        · exact Or.inr ⟨post, hpost, rfl, hvp⟩
        · exact Or.inl h
      · simp only [likeRoute, hvid, if_true, hf, hvp, if_false] at h
        exact Or.inl h
  · simp only [likeRoute, hvid, if_false] at h
    exact Or.inl h

theorem upvoteRoute_mem {db : List Post} {id uid : String} {q : Post}
    (h : q ∈ (upvoteRoute db id uid).2) :
    q ∈ db ∨ ∃ post, post ∈ db ∧
      q = { post with upvotes := toggleList post.upvotes uid } ∧ validPost q = true := by
  by_cases hvid : isValidObjectId id = true
  · cases hf : db.find? (fun p => p.id = id) with
    | none =>
      simp only [upvoteRoute, hvid, if_true, hf] at h
      exact Or.inl h
    | some post =>
      have hpost : post ∈ db := List.mem_of_find?_eq_some hf
      by_cases hvp : validPost { post with upvotes := toggleList post.upvotes uid } = true
      · simp only [upvoteRoute, hvid, if_true, hf, hvp, if_true] at h
        rcases mem_saveReplace h with rfl | h
        · exact Or.inr ⟨post, hpost, rfl, hvp⟩
        · exact Or.inl h
      · simp only [upvoteRoute, hvid, if_true, hf, hvp, if_false] at h
        exact Or.inl h
  · simp only [upvoteRoute, hvid, if_false] at h
    exact Or.inl h

theorem commentRoute_mem {db : List Post} {id uid : String} {text : Option String}
    {now : Nat} {q : Post} (h : q ∈ (commentRoute db id uid text now).2) :
    q ∈ db ∨ ∃ post t, post ∈ db ∧
      q = { post with comments := post.comments ++ [⟨uid, t, now⟩] } ∧
      validPost q = true := by
  by_cases hvid : isValidObjectId id = true
  · cases hf : db.find? (fun p => p.id = id) with
    | none =>
      simp only [commentRoute, hvid, if_true, hf] at h
      exact Or.inl h
    | some post =>
      have hpost : post ∈ db := List.mem_of_find?_eq_some hf
      cases ht : text with
      | none =>
        simp only [commentRoute, hvid, if_true, hf, ht] at h
        exact Or.inl h
      | some t =>
        by_cases hvp : validPost { post with
            comments := post.comments ++ [⟨uid, t, now⟩] } = true ∧ t ≠ ""
        · simp only [commentRoute, hvid, if_true, hf, ht, if_pos hvp] at h
          rcases mem_saveReplace h with rfl | h
          · exact Or.inr ⟨post, t, hpost, rfl, hvp.1⟩
          · exact Or.inl h
        · simp only [commentRoute, hvid, if_true, hf, ht, if_neg hvp] at h
          exact Or.inl h
  · simp only [commentRoute, hvid, if_false] at h
    exact Or.inl h

/-- Every post in a reachable store passed Mongoose validation when it was
last saved, and its likes and upvotes lists are duplicate-free. -/
theorem reachable_inv {db : List Post} (h : Reachable db) :
    ∀ p ∈ db, validPost p = true ∧ p.likes.Nodup ∧ p.upvotes.Nodup := by
  induction h with
  | init => intro p hp; exact absurd hp (List.not_mem_nil p)
  | create db uid body file nid now _ ih =>
    intro q hq
    rcases createPost_mem hq with hq | ⟨hv, hl, hu⟩
    · exact ih q hq
    · exact ⟨hv, by rw [hl]; exact List.nodup_nil, by rw [hu]; exact List.nodup_nil⟩
  | update db id cid role body _ ih =>
    intro q hq
    rcases updatePost_mem hq with hq | ⟨post, hpost, rfl, hv⟩
    · exact ih q hq
    · have hfr₁ := applyStatus_frame post body.status
      have hfr₂ := applyAssigned_frame (applyStatus post body.status) body.assignedTo
      refine ⟨hv, ?_, ?_⟩
      · show (applyUpdate post body).likes.Nodup
        unfold applyUpdate
        rw [hfr₂.2.2.2.2.2.2.2.2.2.2.2.1, hfr₁.2.2.2.2.2.2.2.2.2.2.2.1]
        exact (ih post hpost).2.1
      · show (applyUpdate post body).upvotes.Nodup
        unfold applyUpdate
        rw [hfr₂.2.2.2.2.2.2.2.2.2.2.1, hfr₁.2.2.2.2.2.2.2.2.2.2.1]
        exact (ih post hpost).2.2
  | addComment db id uid text now _ ih =>
    intro q hq
    rcases commentRoute_mem hq with hq | ⟨post, t, hpost, rfl, hv⟩
    · exact ih q hq
    · exact ⟨hv, (ih post hpost).2.1, (ih post hpost).2.2⟩
  | like db id uid _ ih =>
    intro q hq
    rcases likeRoute_mem hq with hq | ⟨post, hpost, rfl, hv⟩
    · exact ih q hq
    · exact ⟨hv, toggleList_nodup (ih post hpost).2.1, (ih post hpost).2.2⟩
  | upvote db id uid _ ih =>
    intro q hq
    rcases upvoteRoute_mem hq with hq | ⟨post, hpost, rfl, hv⟩
    · exact ih q hq
    · exact ⟨hv, (ih post hpost).2.1, toggleList_nodup (ih post hpost).2.2⟩

theorem listPosts_sorted (dist : Int × Int → Int × Int → Int) (db : List Post)
    (category status : Option String) (near : Option NearQuery) (lim page : Nat) :
    List.Sorted createdDesc (listPosts dist db category status near lim page) := by
  unfold listPosts sortByCreatedAtDesc
  have hs := List.sorted_insertionSort createdDesc
    (db.filter (fun p => matchesFilter category p.category &&
      matchesFilter status p.status && matchesNear dist near p))
  exact List.Pairwise.sublist
    ((List.take_sublist _ _).trans (List.drop_sublist _ _)) hs

theorem listPosts_mem {dist : Int × Int → Int × Int → Int} {db : List Post}
    {category status : Option String} {near : Option NearQuery} {lim page : Nat}
    {p : Post} (h : p ∈ listPosts dist db category status near lim page) :
    p ∈ db ∧ matchesFilter category p.category = true ∧
      matchesFilter status p.status = true ∧ matchesNear dist near p = true := by
  unfold listPosts sortByCreatedAtDesc at h
  have h₁ := ((List.take_sublist _ _).trans (List.drop_sublist _ _)).subset h
  have h₂ := (List.perm_insertionSort createdDesc _).subset h₁
  have h₃ := List.mem_filter.1 h₂
  rcases h₃ with ⟨hmem, hpred⟩
  rw [Bool.and_eq_true, Bool.and_eq_true] at hpred
  exact ⟨hmem, hpred.1.1, hpred.1.2, hpred.2⟩

theorem matchesNear_some {dist : Int × Int → Int × Int → Int} {n : NearQuery}
    {p : Post} (h : matchesNear dist (some n) p = true) :
    dist (p.lng, p.lat) (n.lng, n.lat) ≤ nearRadius n := by
  simpa [matchesNear] using h

theorem applyUpdate_frame (post : Post) (body : UpdateBody) :
    (applyUpdate post body).title = post.title ∧
    (applyUpdate post body).description = post.description ∧
    (applyUpdate post body).category = post.category ∧
    (applyUpdate post body).lng = post.lng ∧
    (applyUpdate post body).lat = post.lat ∧
    (applyUpdate post body).address = post.address ∧
    (applyUpdate post body).imageUrl = post.imageUrl ∧
    (applyUpdate post body).videoUrl = post.videoUrl ∧
    (applyUpdate post body).author = post.author ∧
    (applyUpdate post body).upvotes = post.upvotes ∧
    (applyUpdate post body).likes = post.likes ∧
    (applyUpdate post body).shares = post.shares ∧
    (applyUpdate post body).comments = post.comments ∧
    (applyUpdate post body).createdAt = post.createdAt ∧
    (applyUpdate post body).id = post.id := by
  obtain ⟨s1, s2, s3, s4, s5, s6, s7, s8, s9, _, s11, s12, s13, s14, s15, s16⟩ :=
    applyStatus_frame post body.status
  obtain ⟨a1, a2, a3, a4, a5, a6, a7, a8, a9, _, a11, a12, a13, a14, a15, a16⟩ :=
    applyAssigned_frame (applyStatus post body.status) body.assignedTo
  exact ⟨a1.trans s1, a2.trans s2, a3.trans s3, a4.trans s4, a5.trans s5,
    a6.trans s6, a7.trans s7, a8.trans s8, a9.trans s9, a11.trans s11,
    a12.trans s12, a13.trans s13, a14.trans s14, a15.trans s15, a16.trans s16⟩

theorem validPost_status {p : Post} (h : validPost p = true) :
    p.status ∈ statusEnum := by
  simp only [validPost, Bool.and_eq_true, decide_eq_true_eq] at h
  exact h.2

theorem mkNewPost_none {uid : String} {body : CreateBody}
    {file : Option UploadFile} {nid : String} {now : Nat}
    (h : body.title = none ∨ body.description = none ∨ body.category = none ∨
      body.lat = none ∨ body.lng = none) :
    mkNewPost uid body file nid now = none := by
  rcases body with ⟨bt, bd, bc, bla, bln, baddr, bs, ba⟩
  cases bt <;> cases bd <;> cases bc <;> cases bla <;> cases bln <;>
    simp_all [mkNewPost]

theorem mkNewPost_bad_field {uid : String} {body : CreateBody}
    {file : Option UploadFile} {nid : String} {now : Nat}
    (h : (∃ t, body.title = some t ∧ jsTrim t = "") ∨
      body.description = some "" ∨
      (∃ c, body.category = some c ∧ c ∉ categoryEnum)) :
    mkNewPost uid body file nid now = none := by
  unfold mkNewPost
  split
  case h_2 => rfl
  case h_1 t d c la ln ht hd hc hla hln =>
    have hfalse :
        ¬ validPost (newPostDoc uid body t d c la ln file nid now) = true := by
      simp only [validPost, newPostDoc, Bool.and_eq_true, decide_eq_true_eq]
      intro hcontra
      rcases hcontra with ⟨⟨⟨h1, h2⟩, h3⟩, _⟩
      rcases h with ⟨t2, ht2, htr⟩ | hdesc | ⟨c2, hc2, hcat⟩
      · rw [ht] at ht2
        cases ht2
        exact h1 htr
      · rw [hd] at hdesc
        cases hdesc
        exact h2 rfl
      · rw [hc] at hc2
        cases hc2
        exact hcat h3
    rw [if_neg hfalse]

/-! ### Concrete store states used below

A valid create request by user `u1`, the post it produces, the store after
that creation, after a status update to `"in progress"`, and after a like
by user `u9`. -/

def cVid : String := "0123456789abcdef01234567"

def cBody : CreateBody :=
  { title := some "Pothole", description := some "Big hole",
    category := some "roads", lat := some 0, lng := some 1,
    address := none, status := none, author := none }

def cP1 : Post :=
  { id := cVid, title := "Pothole", description := "Big hole",
    category := "roads", lng := 1, lat := 0, address := none,
    imageUrl := none, videoUrl := none, status := "reported", author := "u1",
    assignedTo := none, upvotes := [], likes := [], shares := 0,
    comments := [], createdAt := 0 }

def cDb1 : List Post := (createPost [] "u1" cBody none cVid 0).2

def cUpBody : UpdateBody := { status := some "in progress", assignedTo := none }

def cDb2 : List Post := (updatePost cDb1 cVid "u1" "citizen" cUpBody).2

def cP2 : Post := { cP1 with status := "in progress" }

def cDb3 : List Post := (likeRoute cDb2 cVid "u9").2

def cP3 : Post := { cP2 with likes := ["u9"] }

def cBadFile : UploadFile :=
  { originalname := "malware.exe", mimetype := "application/x-dosexec",
    size := 5, filename := "1.exe" }

theorem reachable_cDb1 : Reachable cDb1 :=
  Reachable.create [] "u1" cBody none cVid 0 Reachable.init

theorem reachable_cDb2 : Reachable cDb2 :=
  Reachable.update cDb1 cVid "u1" "citizen" cUpBody reachable_cDb1

theorem reachable_cDb3 : Reachable cDb3 :=
  Reachable.like cDb2 cVid "u9" reachable_cDb2

/-- A concrete planar stand-in for the store's geospatial metric, used to
exhibit ordering facts; `listPosts` sorts by `createdAt` irrespective of
the metric, so the exhibited order holds for any distance function. -/
def distSq (a b : Int × Int) : Int :=
  (a.1 - b.1) * (a.1 - b.1) + (a.2 - b.2) * (a.2 - b.2)

def cNearPost : Post :=
  { id := "a00000000000000000000001", title := "near", description := "d",
    category := "roads", lng := 1, lat := 0, address := none,
    imageUrl := none, videoUrl := none, status := "reported", author := "u1",
    assignedTo := none, upvotes := [], likes := [], shares := 0,
    comments := [], createdAt := 1 }

def cFarPost : Post :=
  { cNearPost with
    id := "a00000000000000000000002", title := "far",
    lng := 3, createdAt := 2 }

def cNearQ : NearQuery := { lat := 0, lng := 0, radius := none }

/-! ### The claims -/

/-- C1: ToggleLike (and symmetrically ToggleUpvote) flips the caller's
membership in the respective set — a present user is removed, an absent
one added; two consecutive toggles by the same user restore the original
set (same members); and the response carries the new count and the
caller's new membership boolean. -/
theorem c1_toggle_flips_membership :
    (∀ (l : List String) (u : String),
      (u ∈ l → u ∉ toggleList l u) ∧
      (u ∉ l → toggleList l u = l ++ [u]) ∧
      (∀ v, v ≠ u → (v ∈ toggleList l u ↔ v ∈ l)) ∧
      (∀ v, v ∈ toggleList (toggleList l u) u ↔ v ∈ l)) ∧
    (∀ (db : List Post) (id uid : String) (post : Post),
      isValidObjectId id = true →
      db.find? (fun p => p.id = id) = some post →
      validPost { post with likes := toggleList post.likes uid } = true →
      likeRoute db id uid =
        (.ok { likes := (toggleList post.likes uid).length,
               userLiked := !decide (uid ∈ post.likes) },
          saveReplace db { post with likes := toggleList post.likes uid }) ∧
      decide (uid ∈ toggleList post.likes uid) = !decide (uid ∈ post.likes)) ∧
    (∀ (db : List Post) (id uid : String) (post : Post),
      isValidObjectId id = true →
      db.find? (fun p => p.id = id) = some post →
      validPost { post with upvotes := toggleList post.upvotes uid } = true →
      upvoteRoute db id uid =
        (.ok { upvotes := (toggleList post.upvotes uid).length,
               hasUpvoted := !decide (uid ∈ post.upvotes) },
          saveReplace db { post with upvotes := toggleList post.upvotes uid }) ∧
      decide (uid ∈ toggleList post.upvotes uid) = !decide (uid ∈ post.upvotes)) := by
  refine ⟨fun l u => ⟨fun h => not_mem_toggleList_self h,
      fun h => toggleList_of_not_mem h,
      fun v hv => mem_toggleList_ne hv,
      fun v => mem_toggleList_toggleList⟩, ?_, ?_⟩
  · intro db id uid post hvid hf hvp
    refine ⟨?_, decide_mem_toggleList⟩
    simp only [likeRoute, hvid, if_true, hf, hvp]
  · intro db id uid post hvid hf hvp
    refine ⟨?_, decide_mem_toggleList⟩
    simp only [upvoteRoute, hvid, if_true, hf, hvp]

theorem c1_toggle_flips_membership_witness :
    ("u9" ∉ cP1.likes → toggleList cP1.likes "u9" = cP1.likes ++ ["u9"]) ∧
    likeRoute cDb1 cVid "u9" =
      (.ok { likes := (toggleList cP1.likes "u9").length,
             userLiked := !decide ("u9" ∈ cP1.likes) },
        saveReplace cDb1 { cP1 with likes := toggleList cP1.likes "u9" }) ∧
    upvoteRoute cDb1 cVid "u9" =
      (.ok { upvotes := (toggleList cP1.upvotes "u9").length,
             hasUpvoted := !decide ("u9" ∈ cP1.upvotes) },
        saveReplace cDb1 { cP1 with upvotes := toggleList cP1.upvotes "u9" }) :=
  ⟨(c1_toggle_flips_membership.1 cP1.likes "u9").2.1,
   (c1_toggle_flips_membership.2.1 cDb1 cVid "u9" cP1 rfl rfl rfl).1,
   (c1_toggle_flips_membership.2.2 cDb1 cVid "u9" cP1 rfl rfl rfl).1⟩

/-- C2 (amended): for a well-formed (castable) id absent from the store,
UpdateStatusOrAssignment fails with NotFound; for a present post it fails
with Forbidden — leaving the store unchanged — whenever the caller is
neither the author nor holds role "municipal", regardless of payload.
(A malformed id raises a CastError answered 500, see the
counterexample.) -/
theorem c2_update_notfound_and_forbidden :
    (∀ (db : List Post) (id cid role : String) (body : UpdateBody),
      isValidObjectId id = true →
      db.find? (fun p => p.id = id) = none →
      updatePost db id cid role body = (.notFound, db)) ∧
    (∀ (db : List Post) (id cid role : String) (body : UpdateBody) (post : Post),
      isValidObjectId id = true →
      db.find? (fun p => p.id = id) = some post →
      post.author ≠ cid → role ≠ "municipal" →
      updatePost db id cid role body = (.forbidden, db)) := by
  constructor
  · intro db id cid role body hvid hf
    simp only [updatePost, hvid, if_true, hf]
  · intro db id cid role body post hvid hf hauth hrole
    simp only [updatePost, hvid, if_true, hf, if_pos (And.intro hauth hrole)]

theorem c2_update_notfound_and_forbidden_witness :
    updatePost [] "000000000000000000000000" "u1" "citizen" cUpBody =
      (.notFound, []) ∧
    updatePost cDb1 cVid "u2" "citizen" cUpBody = (.forbidden, cDb1) :=
  ⟨c2_update_notfound_and_forbidden.1 [] "000000000000000000000000" "u1"
      "citizen" cUpBody rfl rfl,
   c2_update_notfound_and_forbidden.2 cDb1 cVid "u2" "citizen" cUpBody cP1 rfl rfl
      (of_decide_eq_true rfl) (of_decide_eq_true rfl)⟩

/-- C2 counterexample: the id `"x"` names no post (the store is empty),
yet the update answers 500 (the ObjectId cast error caught by the route),
not NotFound as claimed for every absent id. -/
theorem c2_malformed_id_counterexample :
    ([] : List Post).find? (fun p => p.id = "x") = none ∧
    updatePost [] "x" "u1" "citizen" { status := none, assignedTo := none } =
      (.serverError, ([] : List Post)) ∧
    UpdateResult.serverError ≠ UpdateResult.notFound :=
  ⟨rfl, rfl, by decide⟩

/-- C3: every successful Create yields a post whose status is "reported"
and whose author is the authenticated caller; the handler never reads a
status or author field supplied in the request body. -/
theorem c3_create_status_reported_author_caller :
    (∀ (db : List Post) (uid : String) (body : CreateBody)
        (file : Option UploadFile) (nid : String) (now : Nat) (p : Post),
      (createPost db uid body file nid now).1 = .created p →
      p.status = "reported" ∧ p.author = uid) ∧
    (∀ (db : List Post) (uid : String) (body : CreateBody)
        (file : Option UploadFile) (nid : String) (now : Nat)
        (s a : Option String),
      createPost db uid { body with status := s, author := a } file nid now =
        createPost db uid body file nid now) := by
  constructor
  · intro db uid body file nid now p h
    exact ⟨(createPost_created h).2.1, (createPost_created h).2.2.1⟩
  · intro db uid body file nid now s a
    rfl

theorem c3_create_status_reported_author_caller_witness :
    (cP1.status = "reported" ∧ cP1.author = "u1") ∧
    createPost [] "u1" { cBody with status := some "resolved", author := some "u7" }
        none cVid 0 =
      createPost [] "u1" cBody none cVid 0 :=
  ⟨c3_create_status_reported_author_caller.1 [] "u1" cBody none cVid 0 cP1 rfl,
   c3_create_status_reported_author_caller.2 [] "u1" cBody none cVid 0
      (some "resolved") (some "u7")⟩

/-- C4 (amended): with a `near` filter every returned post lies within
`radius` (5000 when the third `near` component is absent) of the query
point under the store's metric; but the output is ordered newest-first
(`createdAt` descending) — the handler's explicit sort overrides the
nearest-first order `$near` alone would give. -/
theorem c4_near_within_radius_newest_first :
    (∀ (dist : Int × Int → Int × Int → Int) (db : List Post)
        (category status : Option String) (n : NearQuery) (lim page : Nat)
        (p : Post),
      p ∈ listPosts dist db category status (some n) lim page →
      dist (p.lng, p.lat) (n.lng, n.lat) ≤ nearRadius n) ∧
    (∀ n : NearQuery, n.radius = none → nearRadius n = 5000) ∧
    (∀ (dist : Int × Int → Int × Int → Int) (db : List Post)
        (category status : Option String) (near : Option NearQuery)
        (lim page : Nat),
      List.Sorted createdDesc (listPosts dist db category status near lim page)) := by
  refine ⟨?_, ?_, ?_⟩
  · intro dist db category status n lim page p h
    exact matchesNear_some (listPosts_mem h).2.2.2
  · intro n h
    simp [nearRadius, h]
  · intro dist db category status near lim page
    exact listPosts_sorted dist db category status near lim page

theorem c4_near_within_radius_newest_first_witness :
    distSq (cNearPost.lng, cNearPost.lat) (cNearQ.lng, cNearQ.lat) ≤
      nearRadius cNearQ ∧
    nearRadius cNearQ = 5000 :=
  ⟨c4_near_within_radius_newest_first.1 distSq [cNearPost, cFarPost] none none
      cNearQ 20 1 cNearPost (of_decide_eq_true rfl),
   c4_near_within_radius_newest_first.2.1 cNearQ rfl⟩

/-- C4 counterexample: both posts lie within the default radius and the
older post `cNearPost` is strictly nearer to the query point, yet the
route returns the newer, farther post first — not nearest-first. -/
theorem c4_not_nearest_first_counterexample :
    listPosts distSq [cNearPost, cFarPost] none none (some cNearQ) 20 1 =
      [cFarPost, cNearPost] ∧
    distSq (cNearPost.lng, cNearPost.lat) (cNearQ.lng, cNearQ.lat) <
      distSq (cFarPost.lng, cFarPost.lat) (cNearQ.lng, cNearQ.lat) ∧
    cFarPost ≠ cNearPost :=
  ⟨rfl, of_decide_eq_true rfl, of_decide_eq_true rfl⟩

/-- C5 (amended): for every well-formed (castable) id not naming a stored
post, GetById answers NotFound; a malformed id makes the lookup throw a
CastError, which the route's catch answers as a 500 server error. -/
theorem c5_getbyid_notfound_or_cast_error :
    (∀ (db : List Post) (id : String),
      isValidObjectId id = true →
      db.find? (fun p => p.id = id) = none →
      getPostById db id = .notFound) ∧
    (∀ (db : List Post) (id : String),
      isValidObjectId id = false →
      getPostById db id = .serverError) := by
  constructor
  · intro db id hvid hf
    simp only [getPostById, hvid, if_true, hf]
  · intro db id hvid
    simp only [getPostById, hvid, Bool.false_eq_true, if_false]

theorem c5_getbyid_notfound_or_cast_error_witness :
    getPostById cDb1 "000000000000000000000000" = .notFound ∧
    getPostById cDb1 "abc" = .serverError :=
  ⟨c5_getbyid_notfound_or_cast_error.1 cDb1 "000000000000000000000000" rfl rfl,
   c5_getbyid_notfound_or_cast_error.2 cDb1 "abc" rfl⟩

/-- C5 counterexample: `"abc"` names no post (the store is empty), yet
GetById answers a 500 server error, not NotFound. -/
theorem c5_malformed_id_counterexample :
    ([] : List Post).find? (fun p => p.id = "abc") = none ∧
    getPostById [] "abc" = .serverError ∧
    GetResult.serverError ≠ GetResult.notFound :=
  ⟨rfl, rfl, by decide⟩

/-- C6 (amended): every validation failure is rejected with status 500,
not 400 — a missing required Create field (title, description, category,
lat, lng absent, or lat/lng non-numeric), a present but malformed one
(title blank after trimming, empty description, category outside its
enum) makes `save()` throw a ValidationError answered 500 by the route's
catch, and an oversize or wrong-typed file makes multer error out,
answered 500 by the app-level error middleware. -/
theorem c6_validation_failures_yield_500 :
    (∀ (db : List Post) (uid : String) (body : CreateBody)
        (file : Option UploadFile) (nid : String) (now : Nat),
      (body.title = none ∨ body.description = none ∨ body.category = none ∨
        body.lat = none ∨ body.lng = none ∨
        (∃ t, body.title = some t ∧ jsTrim t = "") ∨
        body.description = some "" ∨
        (∃ c, body.category = some c ∧ c ∉ categoryEnum)) →
      (createPost db uid body file nid now).1.code = 500) ∧
    (∀ (db : List Post) (uid : String) (body : CreateBody) (f : UploadFile)
        (nid : String) (now : Nat),
      maxFileSize < f.size ∨ fileFilterOk f = false →
      (createPost db uid body (some f) nid now).1.code = 500) := by
  constructor
  · intro db uid body file nid now h
    have hm : ∀ f2, mkNewPost uid body f2 nid now = none := by
      intro f2
      rcases h with h | h | h | h | h | h | h | h
      · exact mkNewPost_none (Or.inl h)
      · exact mkNewPost_none (Or.inr (Or.inl h))
      · exact mkNewPost_none (Or.inr (Or.inr (Or.inl h)))
      · exact mkNewPost_none (Or.inr (Or.inr (Or.inr (Or.inl h))))
      · exact mkNewPost_none (Or.inr (Or.inr (Or.inr (Or.inr h))))
      · exact mkNewPost_bad_field (Or.inl h)
      · exact mkNewPost_bad_field (Or.inr (Or.inl h))
      · exact mkNewPost_bad_field (Or.inr (Or.inr h))
    cases hu : uploadSingle file with
    | none => simp [createPost, hu, CreateResult.code]
    | some f2 => simp [createPost, hu, hm f2, CreateResult.code]
  · intro db uid body f nid now h
    have hu : uploadSingle (some f) = none := by
      rcases h with h | h
      · by_cases hff : fileFilterOk f = true
        · simp only [uploadSingle, hff, if_true]
          rw [if_neg (not_le.mpr h)]
        · simp only [uploadSingle, hff, Bool.false_eq_true, if_false]
      · simp only [uploadSingle, h, Bool.false_eq_true, if_false]
    simp [createPost, hu, CreateResult.code]

def cBigFile : UploadFile :=
  { originalname := "a.jpg", mimetype := "image/jpeg",
    size := 11 * 1024 * 1024, filename := "1.jpg" }

theorem c6_validation_failures_yield_500_witness :
    (createPost [] "u1" { cBody with description := none } none cVid 0).1.code
      = 500 ∧
    (createPost [] "u1" { cBody with title := some "   " } none cVid 0).1.code
      = 500 ∧
    (createPost [] "u1" { cBody with description := some "" } none cVid 0).1.code
      = 500 ∧
    (createPost [] "u1" { cBody with category := some "bogus" } none cVid 0).1.code
      = 500 ∧
    (createPost [] "u1" cBody (some cBigFile) cVid 0).1.code = 500 :=
  ⟨c6_validation_failures_yield_500.1 [] "u1" { cBody with description := none }
      none cVid 0 (Or.inr (Or.inl rfl)),
   c6_validation_failures_yield_500.1 [] "u1" { cBody with title := some "   " }
      none cVid 0 (Or.inr (Or.inr (Or.inr (Or.inr (Or.inr
        (Or.inl ⟨"   ", rfl, rfl⟩)))))),
   c6_validation_failures_yield_500.1 [] "u1" { cBody with description := some "" }
      none cVid 0 (Or.inr (Or.inr (Or.inr (Or.inr (Or.inr (Or.inr
        (Or.inl rfl))))))),
   c6_validation_failures_yield_500.1 [] "u1" { cBody with category := some "bogus" }
      none cVid 0 (Or.inr (Or.inr (Or.inr (Or.inr (Or.inr (Or.inr (Or.inr
        ⟨"bogus", rfl, of_decide_eq_true rfl⟩))))))),
   c6_validation_failures_yield_500.2 [] "u1" cBody cBigFile cVid 0
      (Or.inl (of_decide_eq_true rfl))⟩

/-- C6 counterexample: a Create missing the required title, and one with a
disallowed file type, are both answered 500 — not 400 as claimed. -/
theorem c6_status_400_counterexample :
    (createPost [] "u1" { cBody with title := none } none cVid 0).1.code = 500 ∧
    (createPost [] "u1" cBody (some cBadFile) cVid 0).1.code = 500 ∧
    (500 : Nat) ≠ 400 :=
  ⟨rfl, rfl, by decide⟩

/-- The status enum exactly as the specification spells it
(`reported|in_progress|resolved`), for comparison with the schema's
`statusEnum`. -/
def specStatusEnum : List String := ["reported", "in_progress", "resolved"]

/-- C7 (amended): every reachable post's status lies in the schema enum
{"reported", "in progress", "resolved"} — the middle value is spelled
with a space, not the underscore the claim uses — and a freshly created
post has status "reported". -/
theorem c7_status_in_schema_enum :
    (∀ db : List Post, Reachable db → ∀ p ∈ db, p.status ∈ statusEnum) ∧
    (∀ (db : List Post) (uid : String) (body : CreateBody)
        (file : Option UploadFile) (nid : String) (now : Nat) (p : Post),
      (createPost db uid body file nid now).1 = .created p →
      p.status = "reported") := by
  constructor
  · intro db h p hp
    exact validPost_status (reachable_inv h p hp).1
  · intro db uid body file nid now p h
    exact (createPost_created h).2.1

theorem c7_status_in_schema_enum_witness :
    cP2.status ∈ statusEnum ∧ cP1.status = "reported" :=
  ⟨c7_status_in_schema_enum.1 cDb2 reachable_cDb2 cP2 (of_decide_eq_true rfl),
   c7_status_in_schema_enum.2 [] "u1" cBody none cVid 0 cP1 rfl⟩

/-- C7 counterexample: a reachable post (created, then updated by its
author) carries status "in progress", which is not an element of the
claim's set {reported, in_progress, resolved}. -/
theorem c7_space_vs_underscore_counterexample :
    Reachable cDb2 ∧ cP2 ∈ cDb2 ∧ cP2.status = "in progress" ∧
      cP2.status ∉ specStatusEnum :=
  ⟨reachable_cDb2, of_decide_eq_true rfl, rfl, of_decide_eq_true rfl⟩

/-- C8: UpdateStatusOrAssignment touches only status and assignedTo:
every other field of the post is unchanged by the applied update, an
omitted status or assignedTo keeps its prior value, and a successful
update applies exactly `applyUpdate` to the stored post and persists
that document and nothing else. -/
theorem c8_update_frame :
    (∀ (post : Post) (body : UpdateBody),
      (applyUpdate post body).title = post.title ∧
      (applyUpdate post body).description = post.description ∧
      (applyUpdate post body).category = post.category ∧
      (applyUpdate post body).lng = post.lng ∧
      (applyUpdate post body).lat = post.lat ∧
      (applyUpdate post body).address = post.address ∧
      (applyUpdate post body).imageUrl = post.imageUrl ∧
      (applyUpdate post body).videoUrl = post.videoUrl ∧
      (applyUpdate post body).author = post.author ∧
      (applyUpdate post body).upvotes = post.upvotes ∧
      (applyUpdate post body).likes = post.likes ∧
      (applyUpdate post body).shares = post.shares ∧
      (applyUpdate post body).comments = post.comments ∧
      (applyUpdate post body).createdAt = post.createdAt ∧
      (applyUpdate post body).id = post.id) ∧
    (∀ (post : Post) (body : UpdateBody), body.status = none →
      (applyUpdate post body).status = post.status) ∧
    (∀ (post : Post) (body : UpdateBody), body.assignedTo = none →
      (applyUpdate post body).assignedTo = post.assignedTo) ∧
    (∀ (db : List Post) (id cid role : String) (body : UpdateBody) (q : Post),
      (updatePost db id cid role body).1 = .ok q →
      ∃ post, db.find? (fun p => p.id = id) = some post ∧
        q = applyUpdate post body ∧
        (updatePost db id cid role body).2 = saveReplace db q) := by
  refine ⟨applyUpdate_frame, ?_, ?_, ?_⟩
  · intro post body h
    unfold applyUpdate
    rw [h, applyStatus_none]
    exact (applyAssigned_frame post body.assignedTo).2.2.2.2.2.2.2.2.2.1
  · intro post body h
    unfold applyUpdate
    rw [h, applyAssigned_none]
    exact (applyStatus_frame post body.status).2.2.2.2.2.2.2.2.2.1
  · intro db id cid role body q h
    by_cases hvid : isValidObjectId id = true
    · cases hf : db.find? (fun p => p.id = id) with
      | none => simp [updatePost, hvid, hf] at h
      | some post =>
        by_cases hauth : post.author ≠ cid ∧ role ≠ "municipal"
        · simp [updatePost, hvid, hf, if_pos hauth] at h
        · by_cases hvp : validPost (applyUpdate post body) = true
          · simp only [updatePost, hvid, if_true, hf, if_neg hauth, hvp,
              if_true, UpdateResult.ok.injEq] at h
            subst h
            refine ⟨post, rfl, rfl, ?_⟩
            simp only [updatePost, hvid, if_true, hf, if_neg hauth, hvp, if_true]
          · simp [updatePost, hvid, hf, if_neg hauth, hvp] at h
    · simp [updatePost, hvid] at h

theorem c8_update_frame_witness :
    ((applyUpdate cP1 cUpBody).likes = cP1.likes ∧
      (applyUpdate cP1 cUpBody).assignedTo = cP1.assignedTo) ∧
    (∃ post, cDb1.find? (fun p => p.id = cVid) = some post ∧
      cP2 = applyUpdate post cUpBody ∧
      (updatePost cDb1 cVid "u1" "citizen" cUpBody).2 = saveReplace cDb1 cP2) :=
  ⟨⟨(c8_update_frame.1 cP1 cUpBody).2.2.2.2.2.2.2.2.2.2.1,
    c8_update_frame.2.2.1 cP1 cUpBody rfl⟩,
   c8_update_frame.2.2.2 cDb1 cVid "u1" "citizen" cUpBody cP2 rfl⟩

/-- C9: in every reachable store, no post's upvotes or likes list contains
a duplicate user reference; the invariant is preserved by every operation,
in particular by the like and upvote toggles. -/
theorem c9_no_duplicate_votes :
    ∀ db : List Post, Reachable db → ∀ p ∈ db,
      p.upvotes.Nodup ∧ p.likes.Nodup := by
  intro db h p hp
  exact ⟨(reachable_inv h p hp).2.2, (reachable_inv h p hp).2.1⟩

theorem c9_no_duplicate_votes_witness :
    cP3.upvotes.Nodup ∧ cP3.likes.Nodup :=
  c9_no_duplicate_votes cDb3 reachable_cDb3 cP3 (of_decide_eq_true rfl)

/-- C10: a provided but falsy update field is silently ignored — sending
status = "" leaves status unchanged, sending assignedTo = null or ""
leaves assignedTo unchanged — and consequently an assignee, once set, can
never be cleared back to unassigned through this operation. -/
theorem c10_falsy_update_fields_ignored :
    (∀ (post : Post) (body : UpdateBody), body.status = some "" →
      (applyUpdate post body).status = post.status) ∧
    (∀ (post : Post) (body : UpdateBody),
      body.assignedTo = none ∨ body.assignedTo = some "" →
      (applyUpdate post body).assignedTo = post.assignedTo) ∧
    (∀ (post : Post) (body : UpdateBody), post.assignedTo ≠ none →
      (applyUpdate post body).assignedTo ≠ none) ∧
    (∀ (db : List Post) (id cid role : String) (body : UpdateBody) (q : Post),
      body.assignedTo = none ∨ body.assignedTo = some "" →
      (updatePost db id cid role body).1 = .ok q →
      ∃ post, db.find? (fun p => p.id = id) = some post ∧
        q.assignedTo = post.assignedTo) := by
  have hassigned : ∀ (post : Post) (body : UpdateBody),
      body.assignedTo = none ∨ body.assignedTo = some "" →
      (applyUpdate post body).assignedTo = post.assignedTo := by
    intro post body h
    unfold applyUpdate
    rcases h with h | h
    · rw [h, applyAssigned_none]
      exact (applyStatus_frame post body.status).2.2.2.2.2.2.2.2.2.1
    · rw [h, applyAssigned_empty]
      exact (applyStatus_frame post body.status).2.2.2.2.2.2.2.2.2.1
  refine ⟨?_, hassigned, ?_, ?_⟩
  · intro post body h
    unfold applyUpdate
    rw [h, applyStatus_empty]
    exact (applyAssigned_frame post body.assignedTo).2.2.2.2.2.2.2.2.2.1
  · intro post body h
    unfold applyUpdate
    cases ha : body.assignedTo with
    | none =>
      rw [applyAssigned_none]
      rw [(applyStatus_frame post body.status).2.2.2.2.2.2.2.2.2.1]
      exact h
    | some v =>
      by_cases hv : v = ""
      · rw [hv, applyAssigned_empty]
        rw [(applyStatus_frame post body.status).2.2.2.2.2.2.2.2.2.1]
        exact h
      · simp [applyAssigned, hv]
  · intro db id cid role body q hfalsy h
    by_cases hvid : isValidObjectId id = true
    · cases hf : db.find? (fun p => p.id = id) with
      | none => simp [updatePost, hvid, hf] at h
      | some post =>
        by_cases hauth : post.author ≠ cid ∧ role ≠ "municipal"
        · simp [updatePost, hvid, hf, if_pos hauth] at h
        · by_cases hvp : validPost (applyUpdate post body) = true
          · simp only [updatePost, hvid, if_true, hf, if_neg hauth, hvp,
              if_true, UpdateResult.ok.injEq] at h
            subst h
            refine ⟨post, rfl, ?_⟩
            exact hassigned post body hfalsy
          · simp [updatePost, hvid, hf, if_neg hauth, hvp] at h
    · simp [updatePost, hvid] at h

theorem c10_falsy_update_fields_ignored_witness :
    (applyUpdate cP2 { status := some "", assignedTo := some "" }).status
      = cP2.status ∧
    (applyUpdate cP2 { status := some "", assignedTo := some "" }).assignedTo
      = cP2.assignedTo ∧
    (∃ post, cDb1.find? (fun p => p.id = cVid) = some post ∧
      cP2.assignedTo = post.assignedTo) :=
  ⟨c10_falsy_update_fields_ignored.1 cP2
      { status := some "", assignedTo := some "" } rfl,
   c10_falsy_update_fields_ignored.2.1 cP2
      { status := some "", assignedTo := some "" } (Or.inr rfl),
   c10_falsy_update_fields_ignored.2.2.2 cDb1 cVid "u1" "citizen" cUpBody cP2
      (Or.inl rfl) rfl⟩

end CivicFeed
